import Mathlib

/-!
Shallow embedding of `taskmaster.py` (TaskMaster): a dependency-gated task
dispatch service.  Tasks live in a global dict `tasks`, the reverse
dependency index in a dict `dependents`; `queue_task` publishes ready
tasks to a durable queue, workers consume one message at a time, execute
the task and dispatch newly-ready dependents.

Modelling conventions:
* Python dicts are association lists (`alist_get` / `alist_set` /
  `alist_modify` mirror `d[k]`, `d[k] = v` and in-place field mutation of
  the stored object).
* The broker is modelled by the list of currently queued messages
  (`St.queue`: pairs of task id and message payload, as published on
  line 72 of the source).
* A raised Python exception is the `Except.error` case, carrying the
  store state at the moment of the raise (mutations performed before the
  raise persist, as they do in Python).
* The outcome of each external `basic_publish` attempt is an explicit
  boolean parameter (`pub`, or the stream `pubs` for the loop at lines
  57-59); the outcome of the opaque task body (the `time.sleep`
  placeholder at line 54, treated by the spec as an injected fallible
  capability) is the boolean `execOk`.
* `str(uuid.uuid4())[:8]` is an external random draw, modelled as the
  explicit `task_id` argument of `create_task`.
-/

/-- Embedding of the `TaskStatus` enum (taskmaster.py lines 12-16). -/
inductive TaskStatus where
  | pending
  | in_progress
  | completed
  | failed
  deriving DecidableEq, Repr

/-- Embedding of the `Task` pydantic model (lines 18-23). -/
structure TaskRecord where
  id : String
  status : TaskStatus
  message : String
  dependencies : List String
  requires_ordering : Bool
  deriving DecidableEq, Repr

/-- Embedding of the `TaskRequest` pydantic model (lines 25-28). -/
structure TaskRequest where
  message : String
  dependencies : List String
  requires_ordering : Bool
  deriving DecidableEq, Repr

/-- Lookup in a Python dict modelled as an association list (`d[k]` /
`d.get(k)`); `none` corresponds to a `KeyError` on subscript access. -/
def alist_get {α : Type} : List (String × α) → String → Option α
  | [], _ => none
  | (k0, v) :: rest, k => if k0 = k then some v else alist_get rest k

/-- Python dict assignment `d[k] = v`: overwrite in place if the key is
present, append otherwise. -/
def alist_set {α : Type} : List (String × α) → String → α → List (String × α)
  | [], k, v => [(k, v)]
  | (k0, v0) :: rest, k, v =>
    if k0 = k then (k0, v) :: rest else (k0, v0) :: alist_set rest k v

/-- In-place mutation of the object stored under a key (Python
`d[k].field = x` mutates the stored object); absent keys are untouched. -/
def alist_modify {α : Type} : List (String × α) → String → (α → α) → List (String × α)
  | [], _, _ => []
  | (k0, v) :: rest, k, f =>
    if k0 = k then (k0, f v) :: rest else (k0, v) :: alist_modify rest k f

/-- Global shared state of the program: the `tasks` dict (line 34), the
`dependents` dict (line 35), and the multiset of messages currently
sitting in the broker queues (each a `(task_id, message)` pair, line 72).
The two RabbitMQ queues are merged into one list because no claim here
concerns the regular/ordered split. -/
structure St where
  tasks : List (String × TaskRecord)
  dependents : List (String × List String)
  queue : List (String × String)
  deriving DecidableEq, Repr

/-- The initial state: both dicts empty, nothing queued. -/
def St0 : St := ⟨[], [], []⟩

/-- Status of the task stored under `tid`, if any. -/
def statusOf (st : St) (tid : String) : Option TaskStatus :=
  (alist_get st.tasks tid).map TaskRecord.status

/-- Embedding of `dependents.get(task_id, [])` (line 57). -/
def dependentsOf (st : St) (tid : String) : List String :=
  (alist_get st.dependents tid).getD []

/-- Embedding of `tasks[task_id].status = s` on a task known to be
present (lines 52, 56, 101). -/
def setStatus (st : St) (tid : String) (s : TaskStatus) : St :=
  { st with tasks := alist_modify st.tasks tid (fun t => { t with status := s }) }

/-- Effect of a successful `basic_publish` (lines 69-74): the message
`(task_id, message)` is appended to the broker queue. -/
def pushMsg (st : St) (tid m : String) : St :=
  { st with queue := st.queue ++ [(tid, m)] }

/-- Embedding of `any(tasks[d].status != TaskStatus.COMPLETED for d in
task.dependencies)` (line 63): lazily evaluated left to right, `none`
models the `KeyError` raised when a dependency id is absent. -/
def depsNotReady (st : St) : List String → Option Bool
  | [] => some false
  | d :: rest =>
    match alist_get st.tasks d with
    | none => none
    | some td =>
      if td.status ≠ TaskStatus.completed then some true else depsNotReady st rest

/-- Embedding of `all(tasks[d].status == TaskStatus.COMPLETED for d in
tasks[dep_id].dependencies)` (line 58), with the same lazy `KeyError`
convention. -/
def allCompleted (st : St) : List String → Option Bool
  | [] => some true
  | d :: rest =>
    match alist_get st.tasks d with
    | none => none
    | some td =>
      if td.status = TaskStatus.completed then allCompleted st rest else some false

/-- Embedding of `queue_task` (lines 61-80).  `pub` is the outcome of the
external publish attempt: the `try` block catches any broker failure and
returns `False` with no mutation.  Note the function inspects only the
dependencies' statuses, never the status of `task_id` itself. -/
def queue_task (st : St) (pub : Bool) (task_id : String) : Except St (Bool × St) :=
  match alist_get st.tasks task_id with
  | none => Except.error st
  | some task =>
    match depsNotReady st task.dependencies with
    | none => Except.error st
    | some true => Except.ok (false, st)
    | some false =>
      if pub then Except.ok (true, pushMsg st task_id task.message)
      else Except.ok (false, st)

/-- Embedding of the dependent re-dispatch loop (lines 57-59): for each
entry of the dependents list, in order, re-check readiness and call
`queue_task`; `pubs` is the stream of broker outcomes, one consumed per
actual publish attempt. -/
def dispatchDependents : St → List Bool → List String → Except St (St × List Bool)
  | st, pubs, [] => Except.ok (st, pubs)
  | st, pubs, dep_id :: rest =>
    match alist_get st.tasks dep_id with
    | none => Except.error st
    | some dt =>
      match allCompleted st dt.dependencies with
      | none => Except.error st
      | some true =>
        match queue_task st (pubs.headD true) dep_id with
        | Except.error stE => Except.error stE
        | Except.ok (_, st1) => dispatchDependents st1 pubs.tail rest
      | some false => dispatchDependents st pubs rest

/-- Embedding of `process_task` (lines 50-59): mark IN_PROGRESS, run the
opaque task body (`execOk` is its outcome; on failure the exception
propagates with the status left IN_PROGRESS), mark COMPLETED, then
re-evaluate and dispatch the dependents. -/
def process_task (st : St) (execOk : Bool) (pubs : List Bool) (task_id : String) :
    Except St (St × List Bool) :=
  match alist_get st.tasks task_id with
  | none => Except.error st
  | some _ =>
    if execOk then
      dispatchDependents
        (setStatus (setStatus st task_id TaskStatus.in_progress) task_id TaskStatus.completed)
        pubs
        (dependentsOf (setStatus (setStatus st task_id TaskStatus.in_progress) task_id TaskStatus.completed) task_id)
    else Except.error (setStatus st task_id TaskStatus.in_progress)

/-- Payload of a broker message as seen by the worker: either it decodes
to a task reference (`json.loads` succeeds and yields a `task_id` and a
`message`), or decoding raises. -/
inductive Body where
  | valid (task_id : String) (message : String)
  | malformed
  deriving DecidableEq, Repr

/-- Result of one run of the worker callback: the resulting store state,
and whether `basic_ack` was executed. -/
structure CbResult where
  state : St
  acked : Bool
  deriving DecidableEq, Repr

/-- Embedding of the worker `callback` (lines 89-102).  On any exception
from the `try` block the handler re-decodes the body (line 98) — so a
malformed body raises again inside the handler, `basic_ack` is never
reached, and the exception escapes to the reconnect loop; for a decodable
body the handler marks the task FAILED when it exists and acknowledges. -/
def callback (st : St) (execOk : Bool) (pubs : List Bool) (body : Body) : CbResult :=
  match body with
  | Body.malformed => ⟨st, false⟩
  | Body.valid task_id _ =>
    match process_task st execOk pubs task_id with
    | Except.ok (st1, _) => ⟨st1, true⟩
    | Except.error stE =>
      if (alist_get stE.tasks task_id).isSome
      then ⟨setStatus stE task_id TaskStatus.failed, true⟩
      else ⟨stE, true⟩

/-- Embedding of the per-occurrence dependents registration (lines
141-144): for each listed dependency, in order, append the new task id to
that dependency's dependents list (creating the entry if missing). -/
def addDependents : St → String → List String → St
  | st, _, [] => st
  | st, tid, dep_id :: rest =>
    addDependents
      { st with dependents := alist_set st.dependents dep_id (dependentsOf st dep_id ++ [tid]) }
      tid rest

/-- The `Task(...)` record built at lines 133-139: fresh id, status
PENDING, and the fields copied from the request. -/
def newTask (task_id : String) (req : TaskRequest) : TaskRecord :=
  ⟨task_id, TaskStatus.pending, req.message, req.dependencies, req.requires_ordering⟩

/-- Embedding of `tasks[task_id] = task` (line 140). -/
def insertTask (st : St) (task_id : String) (t : TaskRecord) : St :=
  { st with tasks := alist_set st.tasks task_id t }

/-- Embedding of `create_task` (lines 128-146).  `task_id` models the
external draw `str(uuid.uuid4())[:8]`; validation rejects (HTTP 400,
modelled as `Except.error` carrying the untouched state) when any listed
dependency id is absent; otherwise the task is inserted with status
PENDING, the dependents index updated, and an initial dispatch attempted
(its boolean result discarded). -/
def create_task (st : St) (task_id : String) (pub : Bool) (req : TaskRequest) :
    Except St (St × String) :=
  if req.dependencies.any (fun d => (alist_get st.tasks d).isNone) then Except.error st
  else
    match
      queue_task (addDependents (insertTask st task_id (newTask task_id req)) task_id req.dependencies)
        pub task_id
    with
    | Except.error stE => Except.error stE
    | Except.ok (_, st3) => Except.ok (st3, task_id)

/-- Number of occurrences of `d` in a list of dependency ids. -/
def countOcc (d : String) : List String → Nat
  | [] => 0
  | e :: rest => (if e = d then 1 else 0) + countOcc d rest

/-- One atomic step of the system: either the request path handles a
task-creation request (the uuid draw assumed fresh, per the spec's
identity invariant), or a worker picks one queued message, runs the
callback on it and acknowledges it (every decodable message is always
acknowledged by the callback, so the message is consumed). -/
inductive Step : St → St → Prop where
  | create (st : St) (task_id : String) (pub : Bool) (req : TaskRequest) (st1 : St)
      (hfresh : alist_get st.tasks task_id = none)
      (h : create_task st task_id pub req = Except.ok (st1, task_id)) :
      Step st st1
  | deliver (st : St) (tid m : String) (execOk : Bool) (pubs : List Bool) (st1 : St)
      (hmem : (tid, m) ∈ st.queue)
      (h : callback { st with queue := st.queue.erase (tid, m) } execOk pubs
             (Body.valid tid m) = ⟨st1, true⟩) :
      Step st st1

/-- States reachable from the empty store. -/
def Reachable (st : St) : Prop := Relation.ReflTransGen Step St0 st

/-! ### A concrete execution trace

The following states arise from: create task `x` with no dependencies;
create task `b` listing the dependency `x` twice; create task `a`
depending on `b`; a worker completes `x` (which publishes `b` twice,
once per occurrence in the dependents index); a worker run of the first
`b` message fails, marking `b` FAILED; a worker run of the second `b`
message re-executes `b` to COMPLETED and dispatches `a`; a worker
completes `a`. -/

/-- `x`: no dependencies, created first. -/
def reqX : TaskRequest := ⟨"mx", [], false⟩

/-- `b`: lists the dependency `x` twice. -/
def reqB : TaskRequest := ⟨"mb", ["x", "x"], false⟩

/-- `a`: depends on `b`. -/
def reqA : TaskRequest := ⟨"ma", ["b"], false⟩

/-- After creating `x` (dispatched at once, so its message is queued). -/
def st1 : St :=
  ⟨[("x", ⟨"x", TaskStatus.pending, "mx", [], false⟩)], [], [("x", "mx")]⟩

/-- After creating `b` (not ready: `x` is still PENDING); note the
dependents entry of `x` now lists `b` twice. -/
def st2 : St :=
  ⟨[("x", ⟨"x", TaskStatus.pending, "mx", [], false⟩),
    ("b", ⟨"b", TaskStatus.pending, "mb", ["x", "x"], false⟩)],
   [("x", ["b", "b"])], [("x", "mx")]⟩

/-- After creating `a` (not ready: `b` is still PENDING). -/
def st3 : St :=
  ⟨[("x", ⟨"x", TaskStatus.pending, "mx", [], false⟩),
    ("b", ⟨"b", TaskStatus.pending, "mb", ["x", "x"], false⟩),
    ("a", ⟨"a", TaskStatus.pending, "ma", ["b"], false⟩)],
   [("x", ["b", "b"]), ("b", ["a"])], [("x", "mx")]⟩

/-- `st3` with the `x` message taken off the queue (the state on which
the worker callback for `x` runs). -/
def st3q : St :=
  ⟨st3.tasks, st3.dependents, []⟩

/-- After the worker completes `x`: the dependents loop ran once per
occurrence of `b` in `dependents["x"]`, so the `b` message is queued
twice. -/
def st4 : St :=
  ⟨[("x", ⟨"x", TaskStatus.completed, "mx", [], false⟩),
    ("b", ⟨"b", TaskStatus.pending, "mb", ["x", "x"], false⟩),
    ("a", ⟨"a", TaskStatus.pending, "ma", ["b"], false⟩)],
   [("x", ["b", "b"]), ("b", ["a"])], [("b", "mb"), ("b", "mb")]⟩

/-- After a failed worker run of the first `b` message: `b` is FAILED,
its dependent `a` is PENDING, and a duplicate `b` message is still
queued. -/
def st5 : St :=
  ⟨[("x", ⟨"x", TaskStatus.completed, "mx", [], false⟩),
    ("b", ⟨"b", TaskStatus.failed, "mb", ["x", "x"], false⟩),
    ("a", ⟨"a", TaskStatus.pending, "ma", ["b"], false⟩)],
   [("x", ["b", "b"]), ("b", ["a"])], [("b", "mb")]⟩

/-- After the duplicate `b` message is processed successfully: the FAILED
task `b` was re-executed to COMPLETED and its dependent `a` dispatched. -/
def st6 : St :=
  ⟨[("x", ⟨"x", TaskStatus.completed, "mx", [], false⟩),
    ("b", ⟨"b", TaskStatus.completed, "mb", ["x", "x"], false⟩),
    ("a", ⟨"a", TaskStatus.pending, "ma", ["b"], false⟩)],
   [("x", ["b", "b"]), ("b", ["a"])], [("a", "ma")]⟩

/-- After the worker completes `a`: the dependent of the once-FAILED task
`b` has left PENDING and reached COMPLETED. -/
def st7 : St :=
  ⟨[("x", ⟨"x", TaskStatus.completed, "mx", [], false⟩),
    ("b", ⟨"b", TaskStatus.completed, "mb", ["x", "x"], false⟩),
    ("a", ⟨"a", TaskStatus.completed, "ma", ["b"], false⟩)],
   [("x", ["b", "b"]), ("b", ["a"])], []⟩

/-- A state holding one PENDING task whose message is queued; used to
exercise the worker callback on a malformed payload. -/
def stMal : St := ⟨[("t", ⟨"t", TaskStatus.pending, "m", [], false⟩)], [], [("t", "m")]⟩

/-- The store after a first creation drew the truncated uuid `aaaaaaaa`. -/
def stDup : St := ⟨[("aaaaaaaa", ⟨"aaaaaaaa", TaskStatus.pending, "old", [], false⟩)], [], []⟩

/-- A store with one COMPLETED task `p`. -/
def stW : St := ⟨[("p", ⟨"p", TaskStatus.completed, "mp", [], false⟩)], [], []⟩

/-- `stW` after creating `q` with the dependency list `["p", "p"]`
(publish failing): `q`'s id appears twice in `p`'s dependents entry. -/
def stW1 : St :=
  ⟨[("p", ⟨"p", TaskStatus.completed, "mp", [], false⟩),
    ("q", ⟨"q", TaskStatus.pending, "mq", ["p", "p"], false⟩)],
   [("p", ["q", "q"])], []⟩

deriving instance DecidableEq for Except

/-- Step: the request path creates `x`. -/
theorem step_create_x : Step St0 st1 :=
  Step.create St0 "x" true reqX st1 rfl (by decide)

/-- Step: the request path creates `b`, listing `x` twice. -/
theorem step_create_b : Step st1 st2 :=
  Step.create st1 "b" true reqB st2 rfl (by decide)

/-- Step: the request path creates `a`, depending on `b`. -/
theorem step_create_a : Step st2 st3 :=
  Step.create st2 "a" true reqA st3 rfl (by decide)

/-- Step: a worker completes `x`, publishing the `b` message twice. -/
theorem step_complete_x : Step st3 st4 :=
  Step.deliver st3 "x" "mx" true [true, true] st4 (by decide) (by decide)

/-- Step: a worker run of the first `b` message fails; `b` becomes FAILED. -/
theorem step_fail_b : Step st4 st5 :=
  Step.deliver st4 "b" "mb" false [] st5 (by decide) (by decide)

/-- Step: the duplicate `b` message re-executes the FAILED task `b` to
COMPLETED and dispatches its dependent `a`. -/
theorem step_redeliver_b : Step st5 st6 :=
  Step.deliver st5 "b" "mb" true [true] st6 (by decide) (by decide)

/-- Step: a worker completes `a`. -/
theorem step_complete_a : Step st6 st7 :=
  Step.deliver st6 "a" "ma" true [] st7 (by decide) (by decide)

/-- The state with `b` FAILED (and a duplicate `b` message still queued)
is reachable from the empty store. -/
theorem reachable_st5 : Reachable st5 :=
  Relation.ReflTransGen.head step_create_x
    (Relation.ReflTransGen.head step_create_b
      (Relation.ReflTransGen.head step_create_a
        (Relation.ReflTransGen.head step_complete_x
          (Relation.ReflTransGen.head step_fail_b Relation.ReflTransGen.refl))))

/-- From the state with `b` FAILED, the system can still reach the state
in which `a` — a dependent of `b` — is COMPLETED. -/
theorem st5_to_st7 : Relation.ReflTransGen Step st5 st7 :=
  Relation.ReflTransGen.head step_redeliver_b
    (Relation.ReflTransGen.head step_complete_a Relation.ReflTransGen.refl)

/-! ### General lemmas about the embedded operations -/

/-- Reading an association list after a `d[k] = v` assignment. -/
theorem alist_get_set {α : Type} (m : List (String × α)) (k : String) (v : α) (k1 : String) :
    alist_get (alist_set m k v) k1 = if k1 = k then some v else alist_get m k1 := by
  induction m with
  | nil =>
    simp only [alist_set, alist_get]
    by_cases h : k = k1
    · subst h; simp
    · simp [h, Ne.symm h]
  | cons p rest ih =>
    obtain ⟨k0, v0⟩ := p
    simp only [alist_set]
    by_cases h0 : k0 = k
    · subst h0
      simp only [if_pos rfl, alist_get]
      by_cases h1 : k0 = k1
      · subst h1; simp
      · simp [h1, Ne.symm h1]
    · simp only [if_neg h0, alist_get]
      by_cases h1 : k0 = k1
      · subst h1
        simp [alist_get, h0]
      · simp [alist_get, h1, ih]

/-- Reading an association list after an in-place mutation of one entry. -/
theorem alist_get_modify {α : Type} (m : List (String × α)) (k : String) (f : α → α) (k1 : String) :
    alist_get (alist_modify m k f) k1 =
      if k1 = k then (alist_get m k).map f else alist_get m k1 := by
  induction m with
  | nil =>
    simp only [alist_modify, alist_get]
    by_cases h : k1 = k <;> simp [h]
  | cons p rest ih =>
    obtain ⟨k0, v0⟩ := p
    simp only [alist_modify]
    by_cases h0 : k0 = k
    · subst h0
      simp only [if_pos rfl, alist_get]
      by_cases h1 : k0 = k1
      · subst h1; simp
      · simp [h1, Ne.symm h1]
    · simp only [if_neg h0, alist_get]
      by_cases h1 : k0 = k1
      · subst h1
        simp [alist_get, h0]
      · simp [alist_get, h1, ih]

/-- `setStatus` changes exactly the targeted task's status field. -/
theorem statusOf_setStatus (st : St) (tid : String) (s : TaskStatus) (k : String) :
    statusOf (setStatus st tid s) k =
      if k = tid then (statusOf st tid).map (fun _ => s) else statusOf st k := by
  simp only [statusOf, setStatus, alist_get_modify]
  by_cases hk : k = tid
  · subst hk
    cases alist_get st.tasks k <;> simp
  · simp [hk]

/-- The line-63 readiness check returns `some false` (all clear) exactly
when every listed dependency is present with status COMPLETED. -/
theorem depsNotReady_false_iff (st : St) (l : List String) :
    depsNotReady st l = some false ↔
      ∀ d ∈ l, statusOf st d = some TaskStatus.completed := by
  induction l with
  | nil => simp [depsNotReady]
  | cons d rest ih =>
    simp only [depsNotReady, List.forall_mem_cons]
    cases hg : alist_get st.tasks d with
    | none => simp [statusOf, hg]
    | some td =>
      by_cases hs : td.status = TaskStatus.completed
      · simp [hs, statusOf, hg, ih]
      · simp [hs, statusOf, hg]

/-- The line-58 readiness check returns `some true` exactly when every
listed dependency is present with status COMPLETED. -/
theorem allCompleted_true_iff (st : St) (l : List String) :
    allCompleted st l = some true ↔
      ∀ d ∈ l, statusOf st d = some TaskStatus.completed := by
  induction l with
  | nil => simp [allCompleted]
  | cons d rest ih =>
    simp only [allCompleted, List.forall_mem_cons]
    cases hg : alist_get st.tasks d with
    | none => simp [statusOf, hg]
    | some td =>
      by_cases hs : td.status = TaskStatus.completed
      · simp [hs, statusOf, hg, ih]
      · simp [hs, statusOf, hg]

/-- A `queue_task` exception (impossible on well-formed stores) leaves
the state untouched. -/
theorem queue_task_error_eq (st : St) (pub : Bool) (tid : String) (stE : St)
    (h : queue_task st pub tid = Except.error stE) : stE = st := by
  unfold queue_task at h
  split at h
  · injection h with h1; exact h1.symm
  · split at h
    · injection h with h1; exact h1.symm
    · exact Except.noConfusion h
    · split at h <;> exact Except.noConfusion h

/-- `queue_task` never modifies the task map or the dependents index:
its only effect is to append one message to the broker queue. -/
theorem queue_task_ok_frame (st : St) (pub : Bool) (tid : String) (b : Bool) (st1 : St)
    (h : queue_task st pub tid = Except.ok (b, st1)) :
    st1.tasks = st.tasks ∧ st1.dependents = st.dependents := by
  unfold queue_task at h
  split at h
  · exact Except.noConfusion h
  · split at h
    · exact Except.noConfusion h
    · injection h with h1
      injection h1 with h2 h3
      subst h3; exact ⟨rfl, rfl⟩
    · split at h
      · injection h with h1
        injection h1 with h2 h3
        subst h3; exact ⟨rfl, rfl⟩
      · injection h with h1
        injection h1 with h2 h3
        subst h3; exact ⟨rfl, rfl⟩

/-- The dependent re-dispatch loop only appends broker messages: the task
map and the dependents index are untouched, in both the normal and the
exceptional outcome. -/
theorem dispatchDependents_frame :
    ∀ (l : List String) (st : St) (pubs : List Bool),
      (∀ st1 pubs1, dispatchDependents st pubs l = Except.ok (st1, pubs1) →
        st1.tasks = st.tasks ∧ st1.dependents = st.dependents)
      ∧ (∀ stE, dispatchDependents st pubs l = Except.error stE →
        stE.tasks = st.tasks ∧ stE.dependents = st.dependents) := by
  intro l
  induction l with
  | nil =>
    intro st pubs
    constructor
    · intro st1 pubs1 h
      unfold dispatchDependents at h
      injection h with h1
      injection h1 with h2 h3
      subst h2; exact ⟨rfl, rfl⟩
    · intro stE h
      exact Except.noConfusion h
  | cons dep_id rest ih =>
    intro st pubs
    constructor
    · intro st1 pubs1 h
      unfold dispatchDependents at h
      split at h
      · exact Except.noConfusion h
      · split at h
        · exact Except.noConfusion h
        · cases hq : queue_task st (pubs.headD true) dep_id with
          | error stE1 => rw [hq] at h; exact Except.noConfusion h
          | ok r =>
            obtain ⟨b1, stq⟩ := r
            rw [hq] at h
            have hf := queue_task_ok_frame st (pubs.headD true) dep_id b1 stq hq
            have hr := (ih stq pubs.tail).1 st1 pubs1 h
            exact ⟨hr.1.trans hf.1, hr.2.trans hf.2⟩
        · exact (ih st pubs).1 st1 pubs1 h
    · intro stE h
      unfold dispatchDependents at h
      split at h
      · injection h with h1; subst h1; exact ⟨rfl, rfl⟩
      · split at h
        · injection h with h1; subst h1; exact ⟨rfl, rfl⟩
        · cases hq : queue_task st (pubs.headD true) dep_id with
          | error stE1 =>
            rw [hq] at h
            injection h with h1
            have h2 := queue_task_error_eq st (pubs.headD true) dep_id stE1 hq
            rw [← h1, h2]
            exact ⟨rfl, rfl⟩
          | ok r =>
            obtain ⟨b1, stq⟩ := r
            rw [hq] at h
            have hf := queue_task_ok_frame st (pubs.headD true) dep_id b1 stq hq
            have hr := (ih stq pubs.tail).2 stE h
            exact ⟨hr.1.trans hf.1, hr.2.trans hf.2⟩
        · exact (ih st pubs).2 stE h

/-- A successful `process_task` run sets the processed task to COMPLETED
and leaves every other task's status unchanged. -/
theorem process_task_ok_status (st : St) (e : Bool) (p : List Bool) (tid : String)
    (st1 : St) (p1 : List Bool) (h : process_task st e p tid = Except.ok (st1, p1)) (k : String) :
    statusOf st1 k = if k = tid then some TaskStatus.completed else statusOf st k := by
  unfold process_task at h
  split at h
  · exact Except.noConfusion h
  · rename_i task hg
    split at h
    · have hf := (dispatchDependents_frame _ _ _).1 st1 p1 h
      have hst : statusOf st1 k =
          statusOf (setStatus (setStatus st tid TaskStatus.in_progress) tid TaskStatus.completed) k := by
        simp only [statusOf, hf.1]
      rw [hst, statusOf_setStatus, statusOf_setStatus]
      by_cases hk : k = tid
      · subst hk
        simp [statusOf, hg]
      · simp [hk, statusOf_setStatus]
    · exact Except.noConfusion h

/-- Whatever state a failing `process_task` run raises in, it never sets
any task's status (back) to PENDING. -/
theorem process_task_error_pending (st stE : St) (e : Bool) (p : List Bool) (tid k : String)
    (h : process_task st e p tid = Except.error stE)
    (hk : statusOf stE k = some TaskStatus.pending) :
    statusOf st k = some TaskStatus.pending := by
  unfold process_task at h
  split at h
  · injection h with h1; rw [← h1] at hk; exact hk
  · rename_i task hg
    split at h
    · have hf := (dispatchDependents_frame _ _ _).2 stE h
      have hst : statusOf stE k =
          statusOf (setStatus (setStatus st tid TaskStatus.in_progress) tid TaskStatus.completed) k := by
        simp only [statusOf, hf.1]
      rw [hst, statusOf_setStatus, statusOf_setStatus] at hk
      by_cases hkt : k = tid
      · subst hkt
        simp [statusOf, hg] at hk
      · simpa [hkt, statusOf_setStatus] using hk
    · injection h with h1
      rw [← h1, statusOf_setStatus] at hk
      by_cases hkt : k = tid
      · subst hkt
        simp [statusOf, hg] at hk
      · simpa [hkt, statusOf_setStatus] using hk

/-- The worker callback never sets any task's status (back) to PENDING:
a task found PENDING after a callback run was already PENDING before. -/
theorem callback_pending (st : St) (e : Bool) (p : List Bool) (b : Body) (k : String)
    (hk : statusOf (callback st e p b).state k = some TaskStatus.pending) :
    statusOf st k = some TaskStatus.pending := by
  cases b with
  | malformed => exact hk
  | valid tid m =>
    cases hp : process_task st e p tid with
    | ok r =>
      obtain ⟨st1, p1⟩ := r
      have hc : callback st e p (Body.valid tid m) = ⟨st1, true⟩ := by
        simp [callback, hp]
      rw [hc] at hk
      have hs := process_task_ok_status st e p tid st1 p1 hp k
      rw [hs] at hk
      by_cases hkt : k = tid
      · simp [hkt] at hk
      · simpa [hkt] using hk
    | error stE =>
      by_cases hpres : (alist_get stE.tasks tid).isSome
      · have hc : callback st e p (Body.valid tid m) =
            ⟨setStatus stE tid TaskStatus.failed, true⟩ := by
          simp [callback, hp, hpres]
        rw [hc] at hk
        rw [statusOf_setStatus] at hk
        by_cases hkt : k = tid
        · subst hkt
          rw [if_pos rfl] at hk
          cases hst : statusOf stE k <;> simp [hst] at hk
        · rw [if_neg hkt] at hk
          exact process_task_error_pending st stE e p tid k hp hk
      · have hc : callback st e p (Body.valid tid m) = ⟨stE, true⟩ := by
          simp [callback, hp, hpres]
        rw [hc] at hk
        exact process_task_error_pending st stE e p tid k hp hk

/-- Registering dependents touches only the dependents index. -/
theorem addDependents_frame :
    ∀ (l : List String) (st : St) (tid : String),
      (addDependents st tid l).tasks = st.tasks ∧ (addDependents st tid l).queue = st.queue := by
  intro l
  induction l with
  | nil => intro st tid; exact ⟨rfl, rfl⟩
  | cons dep_id rest ih =>
    intro st tid
    unfold addDependents
    exact ih _ tid

/-- Registering dependents appends the new id to each dependency's
dependents entry once per occurrence of that dependency in the list. -/
theorem addDependents_spec :
    ∀ (l : List String) (st : St) (tid d : String),
      dependentsOf (addDependents st tid l) d =
        dependentsOf st d ++ List.replicate (countOcc d l) tid := by
  intro l
  induction l with
  | nil => intro st tid d; simp [addDependents, countOcc]
  | cons e rest ih =>
    intro st tid d
    unfold addDependents
    rw [ih]
    by_cases hde : e = d
    · subst hde
      have h1 : dependentsOf
          { st with dependents := alist_set st.dependents e (dependentsOf st e ++ [tid]) } e =
          dependentsOf st e ++ [tid] := by
        simp [dependentsOf, alist_get_set]
      rw [h1]
      simp [countOcc, List.replicate_succ, Nat.add_comm]
    · have h1 : dependentsOf
          { st with dependents := alist_set st.dependents e (dependentsOf st e ++ [tid]) } d =
          dependentsOf st d := by
        simp [dependentsOf, alist_get_set, Ne.symm hde]
      rw [h1]
      simp [countOcc, hde]

/-- Characterization of a successful creation: the returned id is the
drawn id, the task map is the old map with the new PENDING record stored
under the drawn id, and each dependency's dependents entry is extended by
one copy of the new id per occurrence. -/
theorem create_task_ok (st : St) (task_id : String) (pub : Bool) (req : TaskRequest)
    (st1 : St) (rid : String) (h : create_task st task_id pub req = Except.ok (st1, rid)) :
    rid = task_id
    ∧ st1.tasks = alist_set st.tasks task_id (newTask task_id req)
    ∧ ∀ d, dependentsOf st1 d =
        dependentsOf st d ++ List.replicate (countOcc d req.dependencies) task_id := by
  unfold create_task at h
  split at h
  · exact Except.noConfusion h
  · cases hq : queue_task (addDependents (insertTask st task_id (newTask task_id req)) task_id req.dependencies) pub task_id with
    | error stE => rw [hq] at h; exact Except.noConfusion h
    | ok r =>
      obtain ⟨b1, st3⟩ := r
      rw [hq] at h
      injection h with h1
      injection h1 with h2 h3
      subst h2 h3
      have hf := queue_task_ok_frame _ pub task_id b1 st3 hq
      have haf := addDependents_frame req.dependencies (insertTask st task_id (newTask task_id req)) task_id
      refine ⟨rfl, ?_, ?_⟩
      · rw [hf.1, haf.1]
        rfl
      · intro d
        have hd : dependentsOf st3 d =
            dependentsOf (addDependents (insertTask st task_id (newTask task_id req)) task_id req.dependencies) d := by
          simp only [dependentsOf, hf.2]
        rw [hd, addDependents_spec]
        rfl

/-! ### The claims -/

/-- C1, counterexample: the claim says dispatch on a non-PENDING task is
a no-op returning false.  In `st4` the task `x` is COMPLETED with no
dependencies, yet `queue_task` publishes its message again and returns
true — `queue_task` never consults the task's own status. -/
theorem claim_C1_cex :
    statusOf st4 "x" = some TaskStatus.completed
    ∧ queue_task st4 true "x" = Except.ok (true, pushMsg st4 "x" "mx") :=
  ⟨by decide, by decide⟩

/-- C1 (amended): `queue_task` is a no-op returning false precisely when
some dependency is not COMPLETED (or the publish fails); it never checks
the task's own status, so a task that is not PENDING but whose
dependencies are all COMPLETED is published again and true returned. -/
theorem claim_C1_amended (st : St) (pub : Bool) (tid : String) (t : TaskRecord)
    (h : alist_get st.tasks tid = some t) :
    (depsNotReady st t.dependencies = some true → queue_task st pub tid = Except.ok (false, st))
    ∧ (t.status ≠ TaskStatus.pending →
        (∀ d ∈ t.dependencies, statusOf st d = some TaskStatus.completed) →
        queue_task st true tid = Except.ok (true, pushMsg st tid t.message)) := by
  constructor
  · intro hd
    simp [queue_task, h, hd]
  · intro _ hready
    have hd : depsNotReady st t.dependencies = some false :=
      (depsNotReady_false_iff st t.dependencies).mpr hready
    simp [queue_task, h, hd]

/-- C1 witness: in `st2`, task `b` has the not-yet-completed dependency
`x`, so dispatching it is a no-op returning false. -/
theorem claim_C1_amended_witness :
    queue_task st2 true "b" = Except.ok (false, st2) :=
  (claim_C1_amended st2 true "b" ⟨"b", TaskStatus.pending, "mb", ["x", "x"], false⟩
    (by decide)).1 (by decide)

/-- C2, counterexample: the claim says a FAILED task's dependents never
leave PENDING.  The reachable state `st5` has `b` FAILED with dependent
`a` PENDING, yet the system steps on to `st7` where `a` is COMPLETED
(the duplicate `b` message re-executes `b` to COMPLETED first). -/
theorem claim_C2_cex :
    Reachable st5
    ∧ statusOf st5 "b" = some TaskStatus.failed
    ∧ (alist_get st5.tasks "a").map TaskRecord.dependencies = some ["b"]
    ∧ statusOf st5 "a" = some TaskStatus.pending
    ∧ Relation.ReflTransGen Step st5 st7
    ∧ statusOf st7 "a" = some TaskStatus.completed :=
  ⟨reachable_st5, by decide, by decide, by decide, st5_to_st7, by decide⟩

/-- C2 (amended): whenever `queue_task` actually publishes a task, every
one of its dependencies is COMPLETED at that instant — so no task is
dispatched while any of its dependencies is FAILED.  The temporal version
of the claim fails (see the counterexample): a duplicate queue message can
re-execute a FAILED task to COMPLETED, after which its dependents run. -/
theorem claim_C2_amended (st st1 : St) (pub : Bool) (tid : String) (t : TaskRecord)
    (h : alist_get st.tasks tid = some t)
    (hq : queue_task st pub tid = Except.ok (true, st1)) :
    ∀ d ∈ t.dependencies, statusOf st d = some TaskStatus.completed := by
  rw [← depsNotReady_false_iff]
  cases hd : depsNotReady st t.dependencies with
  | none =>
    have hc : queue_task st pub tid = Except.error st := by simp [queue_task, h, hd]
    rw [hc] at hq
    exact Except.noConfusion hq
  | some bb =>
    cases bb with
    | false => rfl
    | true =>
      have hc : queue_task st pub tid = Except.ok (false, st) := by simp [queue_task, h, hd]
      rw [hc] at hq
      injection hq with h1
      injection h1 with h2 h3
      exact Bool.noConfusion h2

/-- C2 witness: in `st6` the task `a` is published, and indeed its only
dependency `b` is COMPLETED at that instant. -/
theorem claim_C2_amended_witness :
    statusOf st6 "b" = some TaskStatus.completed :=
  claim_C2_amended st6 (pushMsg st6 "a" "ma") true "a"
    ⟨"a", TaskStatus.pending, "ma", ["b"], false⟩ (by decide) (by decide) "b" (by decide)

/-- C3: both forms of the readiness check in the code (line 63 in
`queue_task` and line 58 in the dependents loop) hold exactly when every
dependency of the task is present with status COMPLETED; in particular a
task with an empty dependency list is ready, in any state — so also
immediately after its creation. -/
theorem claim_C3 (st : St) (t : TaskRecord) :
    (depsNotReady st t.dependencies = some false ↔
      ∀ d ∈ t.dependencies, statusOf st d = some TaskStatus.completed)
    ∧ (allCompleted st t.dependencies = some true ↔
      ∀ d ∈ t.dependencies, statusOf st d = some TaskStatus.completed)
    ∧ (t.dependencies = [] → depsNotReady st t.dependencies = some false) :=
  ⟨depsNotReady_false_iff st t.dependencies, allCompleted_true_iff st t.dependencies,
    fun h => by rw [h]; rfl⟩

/-- C3 witness: the freshly created task `x` of `st1` has no dependencies
and is ready. -/
theorem claim_C3_witness :
    depsNotReady st1 ([] : List String) = some false :=
  (claim_C3 st1 ⟨"x", TaskStatus.pending, "mx", [], false⟩).2.2 rfl

/-- C4: a creation request listing an absent dependency id fails with the
dependency-not-found rejection (HTTP 400), and the returned error carries
the store exactly as it was — no task created, no index touched. -/
theorem claim_C4 (st : St) (task_id : String) (pub : Bool) (req : TaskRequest)
    (h : ∃ d ∈ req.dependencies, alist_get st.tasks d = none) :
    create_task st task_id pub req = Except.error st := by
  obtain ⟨d, hd, hnone⟩ := h
  have hc : req.dependencies.any (fun d => (alist_get st.tasks d).isNone) = true :=
    List.any_eq_true.mpr ⟨d, hd, by simp [hnone]⟩
  simp [create_task, hc]

/-- C4 witness: creating a task with the unknown dependency
`nonexistent` in `st1` is rejected with the store unchanged. -/
theorem claim_C4_witness :
    create_task st1 "z" true ⟨"mz", ["nonexistent"], false⟩ = Except.error st1 :=
  claim_C4 st1 "z" true ⟨"mz", ["nonexistent"], false⟩ ⟨"nonexistent", by decide, by decide⟩

/-- C5, counterexample: the claim says a task that reached a terminal
status never moves again.  In the reachable state `st5` the task `b` is
FAILED, and one step later (the duplicate `b` message being processed
successfully) it is COMPLETED — a FAILED-to-COMPLETED transition. -/
theorem claim_C5_cex :
    Reachable st5
    ∧ statusOf st5 "b" = some TaskStatus.failed
    ∧ Step st5 st6
    ∧ statusOf st6 "b" = some TaskStatus.completed :=
  ⟨reachable_st5, by decide, step_redeliver_b, by decide⟩

/-- C5 (amended): once a task's status has left PENDING, no later step
returns it to PENDING (fresh creation ids assumed, per the data model).
Monotonicity beyond that fails: a duplicate queue message — e.g. produced
by a repeated dependency entry — re-executes the task, so a task can move
from FAILED back through IN_PROGRESS to COMPLETED and from COMPLETED to
FAILED (see the counterexample). -/
theorem claim_C5_amended (st st1 : St) (tid : String) (t : TaskRecord)
    (hstep : Step st st1) (h : alist_get st.tasks tid = some t)
    (hnp : t.status ≠ TaskStatus.pending) :
    statusOf st1 tid ≠ some TaskStatus.pending := by
  cases hstep with
  | create task_id pub req _ hfresh hc =>
    intro hcontra
    have hne : task_id ≠ tid := by
      intro he
      rw [he, h] at hfresh
      exact Option.noConfusion hfresh
    have hco := create_task_ok st task_id pub req st1 task_id hc
    have hts : statusOf st1 tid = statusOf st tid := by
      simp only [statusOf, hco.2.1]
      rw [alist_get_set, if_neg (Ne.symm hne)]
    rw [hts] at hcontra
    simp [statusOf, h] at hcontra
    exact hnp hcontra
  | deliver tid2 m execOk pubs _ hmem hcb =>
    intro hcontra
    have hstate : (callback { st with queue := st.queue.erase (tid2, m) } execOk pubs
        (Body.valid tid2 m)).state = st1 := congrArg CbResult.state hcb
    have hpend := callback_pending { st with queue := st.queue.erase (tid2, m) } execOk pubs
      (Body.valid tid2 m) tid (by rw [hstate]; exact hcontra)
    simp [statusOf, h] at hpend
    exact hnp hpend

/-- C5 witness: across the failing delivery step from `st4` to `st5`, the
COMPLETED task `x` does not return to PENDING. -/
theorem claim_C5_amended_witness :
    statusOf st5 "x" ≠ some TaskStatus.pending :=
  claim_C5_amended st4 st5 "x" ⟨"x", TaskStatus.completed, "mx", [], false⟩
    step_fail_b (by decide) (by decide)

/-- C6: when the task body raises (`execOk = false`) for a task present
in the store, the worker callback marks that task FAILED, still
acknowledges the message, and publishes nothing (the broker queue is
exactly as before — no dependent is dispatched). -/
theorem claim_C6 (st : St) (tid m : String) (t : TaskRecord) (pubs : List Bool)
    (h : alist_get st.tasks tid = some t) :
    statusOf (callback st false pubs (Body.valid tid m)).state tid = some TaskStatus.failed
    ∧ (callback st false pubs (Body.valid tid m)).acked = true
    ∧ (callback st false pubs (Body.valid tid m)).state.queue = st.queue := by
  have hp : process_task st false pubs tid =
      Except.error (setStatus st tid TaskStatus.in_progress) := by
    simp [process_task, h]
  have hpres : (alist_get (setStatus st tid TaskStatus.in_progress).tasks tid).isSome = true := by
    simp [setStatus, alist_get_modify, h]
  have hc : callback st false pubs (Body.valid tid m) =
      ⟨setStatus (setStatus st tid TaskStatus.in_progress) tid TaskStatus.failed, true⟩ := by
    simp [callback, hp, hpres]
  rw [hc]
  refine ⟨?_, rfl, rfl⟩
  rw [statusOf_setStatus, if_pos rfl, statusOf_setStatus, if_pos rfl]
  rw [statusOf, h]
  rfl

/-- C6 witness: a failing execution of `x` in `st1` leaves `x` FAILED,
the message acknowledged, and the queue untouched. -/
theorem claim_C6_witness :
    statusOf (callback st1 false [] (Body.valid "x" "mx")).state "x" = some TaskStatus.failed
    ∧ (callback st1 false [] (Body.valid "x" "mx")).acked = true
    ∧ (callback st1 false [] (Body.valid "x" "mx")).state.queue = st1.queue :=
  claim_C6 st1 "x" "mx" ⟨"x", TaskStatus.pending, "mx", [], false⟩ [] (by decide)

/-- C7: on a malformed message payload the callback indeed changes no
task status (the state comes back identical) — but, contrary to the
claim, `basic_ack` is never executed (`acked = false`): the handler
re-decodes the body (line 98), which raises again before the `ack` on
line 102, so the exception escapes to the reconnect loop and the
unacknowledged message will be redelivered by the broker. -/
theorem claim_C7 :
    callback stMal true [] Body.malformed = ⟨stMal, false⟩ := rfl

/-- C8: for a ready PENDING task, a failing publish makes `queue_task`
return false with the state — record, status, index and queue —
completely unchanged. -/
theorem claim_C8 (st : St) (tid : String) (t : TaskRecord)
    (h : alist_get st.tasks tid = some t) (hpend : t.status = TaskStatus.pending)
    (hready : depsNotReady st t.dependencies = some false) :
    queue_task st false tid = Except.ok (false, st) := by
  simp [queue_task, h, hready]

/-- C8 witness: a failing publish for the ready PENDING task `x` of
`st1` returns false and leaves `st1` unchanged. -/
theorem claim_C8_witness :
    queue_task st1 false "x" = Except.ok (false, st1) :=
  claim_C8 st1 "x" ⟨"x", TaskStatus.pending, "mx", [], false⟩ (by decide) rfl (by decide)

/-- C9, counterexample: the claim says ids are fresh and never overwrite.
Two successive creations drawing the same truncated uuid `aaaaaaaa` both
succeed; the second silently overwrites the first record (the store still
has exactly one entry, now carrying the new message). -/
theorem claim_C9_cex :
    create_task St0 "aaaaaaaa" false ⟨"old", [], false⟩ = Except.ok (stDup, "aaaaaaaa")
    ∧ create_task stDup "aaaaaaaa" false ⟨"new", [], false⟩ =
        Except.ok (⟨[("aaaaaaaa", ⟨"aaaaaaaa", TaskStatus.pending, "new", [], false⟩)], [], []⟩,
          "aaaaaaaa") :=
  ⟨by decide, by decide⟩

/-- C9 (amended): creation performs no freshness check on the truncated
uuid; when the drawn id happens to be fresh, a new record with status
PENDING and the requested fields is inserted and no other task record is
modified — but a colliding draw silently overwrites (see the
counterexample). -/
theorem claim_C9_amended (st : St) (task_id : String) (pub : Bool) (req : TaskRequest)
    (st1 : St) (rid : String)
    (hfresh : alist_get st.tasks task_id = none)
    (h : create_task st task_id pub req = Except.ok (st1, rid)) :
    rid = task_id
    ∧ alist_get st1.tasks task_id = some (newTask task_id req)
    ∧ ∀ k, k ≠ task_id → alist_get st1.tasks k = alist_get st.tasks k := by
  have hco := create_task_ok st task_id pub req st1 rid h
  refine ⟨hco.1, ?_, ?_⟩
  · rw [hco.2.1, alist_get_set, if_pos rfl]
  · intro k hk
    rw [hco.2.1, alist_get_set, if_neg hk]

/-- C9 witness: creating `x` in the empty store with a fresh id stores
the new PENDING record. -/
theorem claim_C9_amended_witness :
    alist_get st1.tasks "x" = some (newTask "x" reqX) :=
  (claim_C9_amended St0 "x" true reqX st1 "x" rfl (by decide)).2.1

/-- C10: a successful creation appends the new id to each dependency's
dependents entry once per occurrence of that dependency in the request
(so a repeated dependency yields duplicate index entries), and on that
dependency's completion the dependent is readiness-checked and published
once per occurrence: completing `x` in the trace publishes the `b`
message twice, because `b` listed `x` twice. -/
theorem claim_C10 :
    (∀ (st : St) (task_id : String) (pub : Bool) (req : TaskRequest) (st1 : St) (rid : String),
      create_task st task_id pub req = Except.ok (st1, rid) →
      ∀ d, dependentsOf st1 d =
        dependentsOf st d ++ List.replicate (countOcc d req.dependencies) task_id)
    ∧ process_task st3q true [true, true] "x" = Except.ok (st4, [])
    ∧ st4.queue = [("b", "mb"), ("b", "mb")] := by
  refine ⟨?_, by decide, rfl⟩
  intro st task_id pub req st1 rid h d
  exact (create_task_ok st task_id pub req st1 rid h).2.2 d

/-- C10 witness: creating `q` with dependency list `["p", "p"]` appends
`q` to `p`'s dependents entry twice. -/
theorem claim_C10_witness :
    dependentsOf stW1 "p" =
      dependentsOf stW "p" ++ List.replicate (countOcc "p" ["p", "p"]) "q" :=
  claim_C10.1 stW "q" false ⟨"mq", ["p", "p"], false⟩ stW1 "q" (by decide) "p"
